import Mathlib

/-!
Shallow embedding of `frontend/src/core/i18n.ts` together with the
`AppConfigLoader` component: the static locale catalog, the derived
base-language index, locale normalization (`normalizeLocale`,
`convertDetectedLanguage`), the supported-set update
(`updateSupportedLanguages`) and the default-locale applier
(`applyDefaultLocale`).

JS values are modelled as follows: a `string | null | undefined` becomes
`Option String` (with `none` for null/undefined); the JS record
`baseLanguageToFullCode` becomes an association list searched front to
back, so a later duplicate key is shadowed exactly as the source's
insert-if-absent loop skips it; a JS `Set` spread into an array becomes
first-occurrence deduplication; and the mutable i18n/localStorage state
touched by the two exported functions becomes an explicit `I18nState`
record threaded through them.
-/

/-- The static locale catalog `supportedLanguages`: an ordered list of
(code, native display name) pairs, in source order. -/
def supportedLanguages : List (String × String) := [
  ("en-GB", "English"),
  ("ar-AR", "العربية"),
  ("az-AZ", "Azərbaycan Dili"),
  ("bg-BG", "Български"),
  ("ca-CA", "Català"),
  ("cs-CZ", "Česky"),
  ("da-DK", "Dansk"),
  ("de-DE", "Deutsch"),
  ("el-GR", "Ελληνικά"),
  ("es-ES", "Español"),
  ("eu-ES", "Euskara"),
  ("fa-IR", "فارسی"),
  ("fr-FR", "Français"),
  ("ga-IE", "Gaeilge"),
  ("hi-IN", "हिंदी"),
  ("hr-HR", "Hrvatski"),
  ("hu-HU", "Magyar"),
  ("id-ID", "Bahasa Indonesia"),
  ("it-IT", "Italiano"),
  ("ja-JP", "日本語"),
  ("ko-KR", "한국어"),
  ("ml-ML", "മലയാളം"),
  ("nl-NL", "Nederlands"),
  ("no-NB", "Norsk"),
  ("pl-PL", "Polski"),
  ("pt-BR", "Português (Brasil)"),
  ("pt-PT", "Português"),
  ("ro-RO", "Română"),
  ("ru-RU", "Русский"),
  ("sk-SK", "Slovensky"),
  ("sl-SI", "Slovenščina"),
  ("sr-LATN-RS", "Srpski"),
  ("sv-SE", "Svenska"),
  ("th-TH", "ไทย"),
  ("tr-TR", "Türkçe"),
  ("uk-UA", "Українська"),
  ("vi-VN", "Tiếng Việt"),
  ("zh-BO", "བོད་ཡིག"),
  ("zh-CN", "简体中文"),
  ("zh-TW", "繁體中文")]

/-- `Object.keys(supportedLanguages)`: the catalog codes in insertion
order.  A `lang in supportedLanguages` test in the source is membership
in this list. -/
def catalogCodes : List String := supportedLanguages.map Prod.fst

/-- `rtlLanguages`. -/
def rtlLanguages : List String := ["ar-AR", "fa-IR"]

/-- `code.split('-')[0].toLowerCase()`: the lowercased segment before the
first hyphen (the whole string when no hyphen occurs). -/
def baseLangOf (code : String) : String :=
  ⟨(code.data.takeWhile (fun c => c ≠ '-')).map Char.toLower⟩

/-- One iteration of the loop building `baseLanguageToFullCode`:
`if (!baseLanguageToFullCode[baseLang]) { baseLanguageToFullCode[baseLang] = code; }`. -/
def insertIfAbsent (m : List (String × String)) (code : String) : List (String × String) :=
  match m.lookup (baseLangOf code) with
  | some _ => m
  | none => m ++ [(baseLangOf code, code)]

/-- `baseLanguageToFullCode`: built by folding the insert-if-absent step
over the catalog keys, followed by the override
`baseLanguageToFullCode['en'] = 'en-GB'` (modelled by prepending the
binding, which shadows any earlier binding of `"en"` under front-to-back
lookup, exactly as the JS assignment overwrites it). -/
def baseLanguageToFullCode : List (String × String) :=
  ("en", "en-GB") :: catalogCodes.foldl insertIfAbsent []

/-- `locale.replaceAll('_', '-')`: with one-character pattern and
replacement this is a per-character substitution. -/
def replaceAllUnderscores (s : String) : String :=
  ⟨s.data.map (fun c => if c = '_' then '-' else c)⟩

/-- `normalizeLocale` from i18n.ts. -/
def normalizeLocale (locale : String) : String :=
  let normalized := replaceAllUnderscores locale
  if catalogCodes.contains normalized then
    normalized
  else
    let baseLang := baseLangOf normalized
    match baseLanguageToFullCode.lookup baseLang with
    | some mappedLang => mappedLang
    | none => normalized

/-- `convertDetectedLanguage` from the detector options in `i18n.init`:
same resolution as `normalizeLocale` but without the underscore
replacement. -/
def convertDetectedLanguage (lng : String) : String :=
  if catalogCodes.contains lng then
    lng
  else
    match baseLanguageToFullCode.lookup (baseLangOf lng) with
    | some mappedLang => mappedLang
    | none => lng

/-- The mutable state the two exported operations read and write:
`i18n.options.supportedLngs`, `i18n.language` (the empty string models a
not-yet-set language, which is falsy in JS), and
`localStorage['i18nextLng']` (`none` models an absent key). -/
structure I18nState where
  supportedLngs : List String
  activeLocale : String
  userPreference : Option String
deriving DecidableEq

/-- `i18n.changeLanguage(lng)`: switches the active language (the DOM
direction/lang-attribute side effect is outside this state model). -/
def changeLanguage (lng : String) (s : I18nState) : I18nState :=
  { s with activeLocale := lng }

/-- `new Set(...)` insertion-order semantics followed by `Array.from`:
keep the first occurrence of each element. -/
def setDedup : List String → List String
  | [] => []
  | x :: xs => x :: (setDedup xs).filter (fun y => y ≠ x)

/-- The local `languagesToSupport = new Set(['en-GB', ...configLanguages])`. -/
def languagesToSupport (cfg : List String) : List String :=
  setDedup ("en-GB" :: cfg)

/-- The local `validLanguages = Array.from(languagesToSupport).filter(lang => lang in supportedLanguages)`. -/
def validLanguages (cfg : List String) : List String :=
  (languagesToSupport cfg).filter (fun lang => catalogCodes.contains lang)

/-- `updateSupportedLanguages` from i18n.ts; `none` models a
null/undefined argument. -/
def updateSupportedLanguages (configLanguages : Option (List String)) (s : I18nState) : I18nState :=
  match configLanguages with
  | none => s
  | some cfg =>
    if cfg.length = 0 then
      s
    else if (validLanguages cfg).length > 0 then
      let s1 := { s with supportedLngs := validLanguages cfg }
      let currentLang := s1.activeLocale
      if currentLang != "" && !((validLanguages cfg).contains currentLang) then
        changeLanguage "en-GB" s1
      else
        s1
    else
      s

/-- JS truthiness of a possibly-absent string: `undefined`, `null` and
`""` are falsy. -/
def isTruthy : Option String → Bool
  | none => false
  | some s => s != ""

/-- `applyDefaultLocale` from i18n.ts. -/
def applyDefaultLocale (defaultLocale : Option String) (s : I18nState) : I18nState :=
  match defaultLocale with
  | none => s
  | some d =>
    if d = "" then
      s
    else if isTruthy s.userPreference then
      s
    else
      let normalizedLocale := normalizeLocale d
      if catalogCodes.contains normalizedLocale then
        changeLanguage normalizedLocale s
      else
        s

/-- `i18n.options.supportedLngs` as set by `i18n.init`:
`Object.keys(supportedLanguages)`. -/
def initialSupportedLngs : List String := catalogCodes

/-- A concrete state with the supported set at its initial full-catalog
value, used for concrete instantiations. -/
def fullCatalogState : I18nState :=
  { supportedLngs := catalogCodes, activeLocale := "en-GB", userPreference := none }

/-- The claim in §8's round-trip property builds its inputs by replacing
every hyphen of a catalog code with an underscore; this is that input
family. -/
def underscoreForm (s : String) : String :=
  ⟨s.data.map (fun c => if c = '-' then '_' else c)⟩


theorem mem_setDedup {x : String} : ∀ {l : List String}, x ∈ setDedup l ↔ x ∈ l := by
  intro l
  induction l with
  | nil => simp [setDedup]
  | cons a as ih =>
    by_cases hx : x = a
    · subst hx; simp [setDedup]
    · simp [setDedup, List.mem_filter, hx, ih]

theorem replaceAllUnderscores_eq_self {t : String} (h : ∀ ch ∈ t.data, ch ≠ '_') :
    replaceAllUnderscores t = t := by
  have aux : ∀ (l : List Char), (∀ ch ∈ l, ch ≠ '_') →
      l.map (fun c => if c = '_' then '-' else c) = l := by
    intro l hl
    induction l with
    | nil => rfl
    | cons a as ih =>
      simp only [List.map_cons, if_neg (hl a (by simp))]
      rw [ih (fun c hc => hl c (by simp [hc]))]
  show (⟨t.data.map _⟩ : String) = t
  rw [aux t.data h]

theorem enGB_mem_validLanguages (cfg : List String) : "en-GB" ∈ validLanguages cfg := by
  rw [validLanguages, List.mem_filter]
  exact ⟨by simp [languagesToSupport, setDedup], by decide⟩

theorem validLanguages_ne_nil (cfg : List String) : validLanguages cfg ≠ [] :=
  List.ne_nil_of_mem (enGB_mem_validLanguages cfg)

theorem mem_validLanguages {cfg : List String} {x : String} :
    x ∈ validLanguages cfg ↔ (x = "en-GB" ∨ x ∈ cfg) ∧ x ∈ catalogCodes := by
  simp [validLanguages, languagesToSupport, List.mem_filter, mem_setDedup,
    List.elem_eq_mem]

theorem updateSupported_eq (cfg : List String) (h : cfg ≠ []) (s : I18nState) :
    updateSupportedLanguages (some cfg) s =
      if s.activeLocale != "" && !((validLanguages cfg).contains s.activeLocale) then
        { supportedLngs := validLanguages cfg, activeLocale := "en-GB",
          userPreference := s.userPreference }
      else
        { s with supportedLngs := validLanguages cfg } := by
  simp only [updateSupportedLanguages]
  rw [if_neg (by simpa using h),
    if_pos (List.length_pos.mpr (validLanguages_ne_nil cfg))]
  split <;> rfl

theorem updateSupported_supportedLngs (cfg : List String) (h : cfg ≠ []) (s : I18nState) :
    (updateSupportedLanguages (some cfg) s).supportedLngs = validLanguages cfg := by
  rw [updateSupported_eq cfg h s]
  split <;> rfl

theorem lookup_base_eq_find (b : String)
    (h : ∃ c ∈ catalogCodes, baseLangOf c = b) :
    baseLanguageToFullCode.lookup b =
      (if b = "en" then some "en-GB"
       else catalogCodes.find? (fun c => baseLangOf c == b)) := by
  obtain ⟨c, hc, hb⟩ := h
  subst hb
  simp only [catalogCodes, supportedLanguages, List.map] at hc
  fin_cases hc <;> decide

/-- C1: the claim that `restrict(["zz-ZZ"])` (all codes invalid) leaves
`i18n.options.supportedLngs` unchanged is false: starting from the full
catalog, the call replaces the supported set with just `["en-GB"]`,
because the fallback is injected before the validity filter and keeps the
filtered list non-empty. -/
theorem c1_counterexample :
    (updateSupportedLanguages (some ["zz-ZZ"]) fullCatalogState).supportedLngs ≠
      fullCatalogState.supportedLngs ∧
    (updateSupportedLanguages (some ["zz-ZZ"]) fullCatalogState).supportedLngs =
      ["en-GB"] := by
  decide

/-- C1 (amended): if `configLanguages` is non-empty and every code in it
is invalid (not a catalog code), `updateSupportedLanguages` sets the
supported set to exactly `["en-GB"]` — the injected fallback survives the
filter — rather than leaving the prior value in place. -/
theorem c1_all_invalid_yields_fallback_only (s : I18nState) (cfg : List String)
    (hne : cfg ≠ []) (hinv : ∀ c ∈ cfg, c ∉ catalogCodes) :
    (updateSupportedLanguages (some cfg) s).supportedLngs = ["en-GB"] := by
  rw [updateSupported_supportedLngs cfg hne s]
  unfold validLanguages languagesToSupport
  rw [setDedup]
  rw [List.filter_cons_of_pos (by decide)]
  have hnil : ((setDedup cfg).filter (fun y => y ≠ "en-GB")).filter
      (fun lang => catalogCodes.contains lang) = [] := by
    rw [List.filter_eq_nil_iff]
    intro a ha
    have hmemcfg : a ∈ cfg := mem_setDedup.mp (List.mem_filter.mp ha).1
    simp [List.elem_eq_mem, hinv a hmemcfg]
  rw [hnil]

/-- C1 witness: instantiating the amended claim at the entirely invalid
request `["zz-ZZ"]` from the full-catalog state. -/
theorem c1_witness :
    (updateSupportedLanguages (some ["zz-ZZ"]) fullCatalogState).supportedLngs =
      ["en-GB"] :=
  c1_all_invalid_yields_fallback_only fullCatalogState ["zz-ZZ"] (by decide) (by decide)

/-- C2: the claim that `restrict([])` always results in the full catalog
is false: the empty/absent case is a no-op, so from a previously
restricted state (here reached by `restrict(["de-DE"])`) the supported
set stays `["en-GB", "de-DE"]` and is missing e.g. `"fr-FR"`. -/
theorem c2_counterexample :
    (updateSupportedLanguages (some [])
        (updateSupportedLanguages (some ["de-DE"]) fullCatalogState)).supportedLngs ≠
      catalogCodes ∧
    "fr-FR" ∈ catalogCodes ∧
    "fr-FR" ∉ (updateSupportedLanguages (some [])
        (updateSupportedLanguages (some ["de-DE"]) fullCatalogState)).supportedLngs := by
  decide

/-- C2 (amended): `updateSupportedLanguages` with an absent argument or
an empty list is a no-op on the whole state — the supported set keeps
its prior value (so it equals the full catalog exactly when it already
did, e.g. in the untouched default state). -/
theorem c2_empty_or_absent_is_noop (s : I18nState) :
    updateSupportedLanguages none s = s ∧
    updateSupportedLanguages (some []) s = s :=
  ⟨rfl, rfl⟩

/-- C3: with no stored user preference, `applyDefaultLocale` switches the
active language to the normalized default whenever that normalization is
a catalog code, for every current supported set (which it leaves
untouched) — membership in `supportedLngs` is never consulted, so the
active locale can become a code excluded from the supported set. -/
theorem c3_default_ignores_supported_set (s : I18nState) (d : String)
    (hpref : s.userPreference = none)
    (hcat : normalizeLocale d ∈ catalogCodes) :
    (applyDefaultLocale (some d) s).activeLocale = normalizeLocale d ∧
    (applyDefaultLocale (some d) s).supportedLngs = s.supportedLngs := by
  have hd : d ≠ "" := by
    intro he
    subst he
    exact absurd hcat (by decide)
  simp only [applyDefaultLocale]
  rw [if_neg hd, hpref]
  simp only [isTruthy, Bool.false_eq_true, if_false]
  rw [if_pos (by simp [List.elem_eq_mem, hcat])]
  exact ⟨rfl, rfl⟩

/-- C3 witness: with the supported set restricted to `["en-GB"]` and no
preference, `applyDefaultLocale("de-DE")` activates `"de-DE"`, a code
excluded from the (unchanged) supported set. -/
theorem c3_witness :
    (applyDefaultLocale (some "de-DE")
        (I18nState.mk ["en-GB"] "en-GB" none)).activeLocale = "de-DE" ∧
    "de-DE" ∉ (applyDefaultLocale (some "de-DE")
        (I18nState.mk ["en-GB"] "en-GB" none)).supportedLngs := by
  have h := c3_default_ignores_supported_set (I18nState.mk ["en-GB"] "en-GB" none)
    "de-DE" rfl (by decide)
  refine ⟨h.1.trans (by decide), ?_⟩
  rw [h.2]
  decide

/-- C4: whenever the persisted preference holds a non-empty value,
`applyDefaultLocale` is a no-op on the entire state, for every argument
(absent or any string). -/
theorem c4_user_preference_wins (s : I18nState) (d : Option String) (p : String)
    (hp : s.userPreference = some p) (hne : p ≠ "") :
    applyDefaultLocale d s = s := by
  match d with
  | none => rfl
  | some d' =>
    simp only [applyDefaultLocale]
    by_cases hd : d' = ""
    · rw [if_pos hd]
    · rw [if_neg hd, if_pos (by simp [isTruthy, hp, hne])]

/-- C4 witness: `applyDefaultLocale("de_DE")` with preference `"fr-FR"`
stored leaves the state untouched. -/
theorem c4_witness :
    applyDefaultLocale (some "de_DE")
        (I18nState.mk catalogCodes "en-GB" (some "fr-FR")) =
      I18nState.mk catalogCodes "en-GB" (some "fr-FR") :=
  c4_user_preference_wins _ (some "de_DE") "fr-FR" rfl (by decide)

/-- C5: for a non-empty `configLanguages` containing at least one catalog
code, the new supported set is exactly the union of the request and the
fallback `"en-GB"`, intersected with the catalog codes — requested codes
outside the catalog are silently dropped. -/
theorem c5_restrict_set_semantics (s : I18nState) (cfg : List String)
    (hne : cfg ≠ []) (hvalid : ∃ c ∈ cfg, c ∈ catalogCodes) :
    ∀ x, x ∈ (updateSupportedLanguages (some cfg) s).supportedLngs ↔
      ((x ∈ cfg ∨ x = "en-GB") ∧ x ∈ catalogCodes) := by
  intro x
  rw [updateSupported_supportedLngs cfg hne s, mem_validLanguages]
  tauto

/-- C5 witness: `restrict(["de-DE"])` from the full catalog yields a set
holding `"de-DE"` and `"en-GB"` and dropping `"fr-FR"` and the invalid
`"zz-ZZ"`. -/
theorem c5_witness :
    "de-DE" ∈ (updateSupportedLanguages (some ["de-DE"]) fullCatalogState).supportedLngs ∧
    "en-GB" ∈ (updateSupportedLanguages (some ["de-DE"]) fullCatalogState).supportedLngs ∧
    "fr-FR" ∉ (updateSupportedLanguages (some ["de-DE"]) fullCatalogState).supportedLngs := by
  have h := c5_restrict_set_semantics fullCatalogState ["de-DE"] (by decide)
    ⟨"de-DE", by decide, by decide⟩
  refine ⟨(h "de-DE").mpr (by decide), (h "en-GB").mpr (by decide), ?_⟩
  intro hmem
  exact absurd ((h "fr-FR").mp hmem) (by decide)

/-- C6: when a non-empty restriction replaces the supported set and the
current (non-empty) active locale is not a member of the new set, the
active locale is forced to `"en-GB"`. -/
theorem c6_active_forced_to_fallback (s : I18nState) (cfg : List String)
    (hne : cfg ≠ []) (hcur : s.activeLocale ≠ "")
    (hout : s.activeLocale ∉ (updateSupportedLanguages (some cfg) s).supportedLngs) :
    (updateSupportedLanguages (some cfg) s).activeLocale = "en-GB" := by
  rw [updateSupported_supportedLngs cfg hne s] at hout
  rw [updateSupported_eq cfg hne s,
    if_pos (by simp [List.elem_eq_mem, hcur, hout])]

/-- C6 witness: with active locale `"ja-JP"`, `restrict(["de-DE"])`
forces the active locale to `"en-GB"`. -/
theorem c6_witness :
    (updateSupportedLanguages (some ["de-DE"])
        (I18nState.mk catalogCodes "ja-JP" none)).activeLocale = "en-GB" :=
  c6_active_forced_to_fallback (I18nState.mk catalogCodes "ja-JP" none)
    ["de-DE"] (by decide) (by decide) (by decide)

/-- C7: every catalog code is a fixed point of `normalizeLocale`, and its
underscore form (every hyphen replaced by an underscore) normalizes back
to the code itself. -/
theorem c7_catalog_fixed_points :
    ∀ c ∈ catalogCodes,
      normalizeLocale c = c ∧ normalizeLocale (underscoreForm c) = c := by
  decide

/-- C7 witness: the three-part code `sr-LATN-RS` is a fixed point and its
underscore form `sr_LATN_RS` round-trips. -/
theorem c7_witness :
    normalizeLocale "sr-LATN-RS" = "sr-LATN-RS" ∧
    normalizeLocale (underscoreForm "sr-LATN-RS") = "sr-LATN-RS" :=
  c7_catalog_fixed_points "sr-LATN-RS" (by decide)

/-- C8: on a bare base-language tag (no hyphen or underscore) that is not
a catalog code, `normalizeLocale` returns the first catalog code in
insertion order whose base language matches the tag's lowercased form,
except that an `"en"` base is pinned to `"en-GB"` (given that some
catalog code's base matches at all). -/
theorem c8_bare_tag_first_variant_wins (t : String)
    (hbare : ∀ ch ∈ t.data, ch ≠ '-' ∧ ch ≠ '_')
    (hnot : t ∉ catalogCodes)
    (hmatch : ∃ c ∈ catalogCodes, baseLangOf c = baseLangOf t) :
    some (normalizeLocale t) =
      (if baseLangOf t = "en" then some "en-GB"
       else catalogCodes.find? (fun c => baseLangOf c == baseLangOf t)) := by
  have hA : replaceAllUnderscores t = t :=
    replaceAllUnderscores_eq_self (fun ch hch => (hbare ch hch).2)
  have hcont : catalogCodes.contains t = false := by
    simp [List.elem_eq_mem, hnot]
  have hlk := lookup_base_eq_find (baseLangOf t) hmatch
  unfold normalizeLocale
  simp only [hA, hcont, Bool.false_eq_true, if_false]
  rw [hlk]
  by_cases he : baseLangOf t = "en"
  · simp [he]
  · have hsome : (catalogCodes.find? (fun c => baseLangOf c == baseLangOf t)).isSome := by
      rw [List.find?_isSome]
      obtain ⟨c, hc, hb⟩ := hmatch
      exact ⟨c, hc, by simp [hb]⟩
    obtain ⟨m, hm⟩ := Option.isSome_iff_exists.mp hsome
    simp [he, hm]

/-- C8 witness: the bare tag `"es"` (not a catalog code, base matched by
`"es-ES"`) normalizes to `"es-ES"`, the first and only es-based catalog
entry. -/
theorem c8_witness : normalizeLocale "es" = "es-ES" := by
  have h := c8_bare_tag_first_variant_wins "es" (by decide) (by decide)
    ⟨"es-ES", by decide, by decide⟩
  exact Option.some.inj (h.trans (by decide))

/-- C9: the supported-set invariant — non-empty and containing the
fallback `"en-GB"` — holds in the initial full-catalog set and is
preserved by every call to `updateSupportedLanguages`, with any
argument. -/
theorem c9_invariant_preserved :
    ("en-GB" ∈ initialSupportedLngs ∧ initialSupportedLngs ≠ []) ∧
    ∀ (s : I18nState) (cfg : Option (List String)),
      "en-GB" ∈ s.supportedLngs →
      ("en-GB" ∈ (updateSupportedLanguages cfg s).supportedLngs ∧
        (updateSupportedLanguages cfg s).supportedLngs ≠ []) := by
  refine ⟨by decide, ?_⟩
  intro s cfg h
  match cfg with
  | none => exact ⟨h, List.ne_nil_of_mem h⟩
  | some c =>
    by_cases hc : c = []
    · subst hc
      exact ⟨h, List.ne_nil_of_mem h⟩
    · rw [updateSupported_supportedLngs c hc s]
      exact ⟨enGB_mem_validLanguages c, validLanguages_ne_nil c⟩

/-- C9 witness: instantiating the preservation part at the full-catalog
state and the all-invalid request `["zz-ZZ"]`. -/
theorem c9_witness :
    "en-GB" ∈ (updateSupportedLanguages (some ["zz-ZZ"]) fullCatalogState).supportedLngs ∧
    (updateSupportedLanguages (some ["zz-ZZ"]) fullCatalogState).supportedLngs ≠ [] :=
  c9_invariant_preserved.2 fullCatalogState (some ["zz-ZZ"]) (by decide)

/-- C10: the bare tag `"zh"` resolves to the Tibetan entry `"zh-BO"` —
which the catalog lists before `"zh-CN"` and `"zh-TW"` — under both
`normalizeLocale` and the detector's `convertDetectedLanguage`. -/
theorem c10_zh_maps_to_tibetan :
    normalizeLocale "zh" = "zh-BO" ∧
    convertDetectedLanguage "zh" = "zh-BO" ∧
    catalogCodes.indexOf "zh-BO" < catalogCodes.indexOf "zh-CN" ∧
    catalogCodes.indexOf "zh-BO" < catalogCodes.indexOf "zh-TW" := by
  decide
